import Mathlib

/-!
Verification of the serverless-plugin-lambda-insights plugin
(`AddLambdaInsights` class). The JavaScript source is shallowly embedded:
dynamically-typed configuration values become an explicit `JSVal` sum type,
JavaScript truthiness is made explicit, thrown errors become an error sum
type threaded through results, and the in-place mutation of the service
descriptor becomes explicit state passing. The remote
`getLayerVersionByArn` call is modelled as an oracle `String → Except`
carried in the environment, and the requests actually issued are recorded
as a trace.
-/

namespace Insights

/-- A JavaScript value as it may appear in a configuration field.
Numbers are modelled as integers (the plugin only deals in layer version
numbers). -/
inductive JSVal where
  | vBool : Bool → JSVal
  | vNum : Int → JSVal
  | vStr : String → JSVal
  | vNull : JSVal
deriving DecidableEq, Repr

/-- JavaScript truthiness of a value (`Boolean(v)`). -/
def JSVal.truthy : JSVal → Bool
  | .vBool b => b
  | .vNum n => n ≠ 0
  | .vStr s => s ≠ ""
  | .vNull => false

/-- `typeof v === 'boolean'`. -/
def JSVal.isBool : JSVal → Bool
  | .vBool _ => true
  | _ => false

/-- `typeof v === 'number'`. -/
def JSVal.isNum : JSVal → Bool
  | .vNum _ => true
  | _ => false

/-- An error thrown by the remote `provider.request` call: `code` models the
`err.code` property (absent when the thrown object carries none), `payload`
distinguishes otherwise identical errors so that "propagated unchanged" is
observable. -/
structure RemoteErr where
  code : Option String
  payload : String
deriving DecidableEq, Repr

/-- Every error the plugin run can throw. `remote e` is a remote-call error
rethrown verbatim; `nullFunctionsTypeError` is the TypeError raised by
`Object.keys(null)` when `service.functions` is `null` (which passes the
`typeof !== 'object'` guard since `typeof null === 'object'`). -/
inductive PluginError where
  | invalidBoolType : PluginError
  | invalidVersionType : PluginError
  | layerVersionNotFound : Int → String → PluginError
  | unknownRegion : String → PluginError
  | remote : RemoteErr → PluginError
  | nullFunctionsTypeError : PluginError
deriving DecidableEq, Repr

/-- The message string of each error, as produced by the JavaScript source. -/
def errorMessage : PluginError → String
  | .invalidBoolType =>
      "LambdaInsights and DefaultLambdaInsights values must be set to either true or false."
  | .invalidVersionType => "lambdaInsightsVersion version must be a number."
  | .layerVersionNotFound v region =>
      "LambdaInsights layer version " ++ toString v ++
      " does not exist within your region " ++ region ++ "."
  | .unknownRegion region =>
      "Unknown latest version for region " ++ region ++ ". " ++
      "Check the Lambda Insights documentation to get the list of currently supported versions."
  | .remote e => e.payload
  | .nullFunctionsTypeError => "Cannot convert undefined or null to object"

/-- `checkLambdaInsightsType`: returns the input if it is a boolean,
otherwise throws. No coercion. -/
def checkLambdaInsightsType (value : JSVal) : Except PluginError Bool :=
  match value with
  | .vBool b => .ok b
  | _ => .error .invalidBoolType

/-- `checkLambdaInsightsVersion`: returns the input if it is a number,
otherwise throws. No coercion. -/
def checkLambdaInsightsVersion (value : JSVal) : Except PluginError Int :=
  match value with
  | .vNum n => .ok n
  | _ => .error .invalidVersionType

/-- The non-Arm64 layer ARN template
`arn:aws:lambda:REGION:580247275435:layer:LambdaInsightsExtension:VERSION`. -/
def x86ArnTemplate (region : String) (version : Int) : String :=
  "arn:aws:lambda:" ++ region ++ ":580247275435:layer:LambdaInsightsExtension:" ++
    toString version

/-- The Arm64 layer ARN template
`arn:aws:lambda:REGION:580247275435:layer:LambdaInsightsExtension-Arm64:VERSION`. -/
def armArnTemplate (region : String) (version : Int) : String :=
  "arn:aws:lambda:" ++ region ++ ":580247275435:layer:LambdaInsightsExtension-Arm64:" ++
    toString version

/-- The environment the plugin code reads but never writes: the deployment
region (`provider.getRegion()`), the deployment-wide architecture
(`service.provider.architecture`, absent when undefined), the remote
`getLayerVersionByArn` oracle (keyed by the requested ARN; `.ok` carries the
returned `LayerVersionArn`), and the two static region tables.

Modelled from the spec: the static tables `layerVersions.json` and
`layerVersionsArm64.json` are repository data files not present under
`src/`, so they are abstract mappings from region to an optional identifier
string, as §3 RegionVersionTable describes. -/
structure Env where
  region : String
  providerArch : Option String
  remote : String → Except RemoteErr String
  x86Table : String → Option String
  armTable : String → Option String

/-- `architecture ? architecture === 'arm64' : this.service.provider.architecture === 'arm64'`:
the function's own architecture decides when it is truthy (a non-empty
string), otherwise the deployment-wide architecture decides. -/
def isArm64 (fnArch providerArch : Option String) : Bool :=
  match fnArch with
  | some a => if a ≠ "" then a = "arm64" else providerArch = some "arm64"
  | none => providerArch = some "arm64"

/-- JavaScript truthiness of the `version` argument of `generateLayerARN`
(`if (version)`): it is `null` or a checked number at every call site. -/
def versionTruthy : Option Int → Bool
  | some n => n ≠ 0
  | none => false

/-- `generateLayerARN(version, architecture)`: with a truthy version, build
the architecture-qualified ARN, issue the remote existence check, return its
`LayerVersionArn` on success; on failure translate an
`AccessDeniedException` into a version-not-found error naming version and
region, and rethrow any other error unchanged. With no (or falsy) version,
look the region up in the architecture's static table and fail for an
absent (or empty, i.e. falsy) entry, naming the region.

Returns the result together with the list of remote requests issued (the
ARNs passed to `provider.request`), in order. -/
def generateLayerARN (env : Env) (version : Option Int) (fnArch : Option String) :
    Except PluginError String × List String :=
  let arm := isArm64 fnArch env.providerArch
  if versionTruthy version then
    let v := version.getD 0
    let requested := if arm then armArnTemplate env.region v else x86ArnTemplate env.region v
    match env.remote requested with
    | .ok layerVersionArn => (.ok layerVersionArn, [requested])
    | .error e =>
      if e.code = some "AccessDeniedException" then
        (.error (.layerVersionNotFound v env.region), [requested])
      else
        (.error (.remote e), [requested])
  else
    match (if arm then env.armTable else env.x86Table) env.region with
    | some arn =>
      if arn = "" then (.error (.unknownRegion env.region), [])
      else (.ok arn, [])
    | none => (.error (.unknownRegion env.region), [])

/-- One function entry of the deployment descriptor: the raw
`lambdaInsights` value when the property is present, the declared
architecture when present, and the layers list (`none` models an undefined
`layers` property). -/
structure FunctionSpec where
  lambdaInsights : Option JSVal
  architecture : Option String
  layers : Option (List String)
deriving DecidableEq, Repr

/-- The value of `service.functions`, classified by what the
`typeof ... !== 'object'` guard and `Object.keys` see: absent
(`undefined`), `null` (whose `typeof` is `'object'`), a primitive, or an
actual mapping with its keys in declaration order. -/
inductive FunctionsVal where
  | vUndefined : FunctionsVal
  | vNull : FunctionsVal
  | vStr : String → FunctionsVal
  | vNum : Int → FunctionsVal
  | vBool : Bool → FunctionsVal
  | vMap : List (String × FunctionSpec) → FunctionsVal
deriving DecidableEq, Repr

/-- `typeof functions === 'object'` (true for `null` and for mappings). -/
def typeofIsObject : FunctionsVal → Bool
  | .vNull => true
  | .vMap _ => true
  | _ => false

/-- The mutable part of the service descriptor the run touches: the
functions collection and `provider.iamManagedPolicies` (`none` models an
undefined list). -/
structure ServiceState where
  functions : FunctionsVal
  iamManagedPolicies : Option (List String)
deriving DecidableEq, Repr

/-- The shared managed policy appended once per enabling run. -/
def lambdaInsightsManagedPolicy : String :=
  "arn:aws:iam::aws:policy/CloudWatchLambdaInsightsExecutionRolePolicy"

/-- `fn.hasOwnProperty('lambdaInsights') ? checkLambdaInsightsType(fn.lambdaInsights) : null`. -/
def localInsightsOf (fn : FunctionSpec) : Except PluginError (Option Bool) :=
  match fn.lambdaInsights with
  | some v => (checkLambdaInsightsType v).map some
  | none => .ok none

/-- Truthiness of `localLambdaInsights || globalLambdaInsights` where both
operands are `true`, `false` or `null`. -/
def jsOrTruthy (l g : Option Bool) : Bool :=
  if l.getD false then true else g.getD false

/-- Result of the per-function loop: the functions list after mutation, the
`policyToggle` flag, the error that aborted the loop (if any), and the
remote requests issued, in order. -/
structure LoopResult where
  fns : List (String × FunctionSpec)
  toggle : Bool
  err : Option PluginError
  reqs : List String
deriving DecidableEq, Repr

/-- The `for (const functionName of functions)` loop of
`addLambdaInsightsToFunctions`: for each function, first resolve the layer
ARN (issuing the remote check when an explicit version is set), then read
and type-check the local toggle, skip the function when the local toggle is
`false` or both toggles are unset, and otherwise, when the effective toggle
is truthy, append the ARN to the function's layers and set `policyToggle`.
A thrown error aborts the loop, leaving the current and the remaining
functions untouched. -/
def processFunctions (env : Env) (globalLambdaInsights : Option Bool)
    (layerVersion : Option Int) :
    List (String × FunctionSpec) → Bool → LoopResult
  | [], toggle => ⟨[], toggle, none, []⟩
  | (name, fn) :: rest, toggle =>
    match generateLayerARN env layerVersion fn.architecture with
    | (.error e, reqs) => ⟨(name, fn) :: rest, toggle, some e, reqs⟩
    | (.ok layerARN, reqs) =>
      match localInsightsOf fn with
      | .error e => ⟨(name, fn) :: rest, toggle, some e, reqs⟩
      | .ok localLambdaInsights =>
        if localLambdaInsights = some false ∨
            (localLambdaInsights = none ∧ globalLambdaInsights = none) then
          let r := processFunctions env globalLambdaInsights layerVersion rest toggle
          ⟨(name, fn) :: r.fns, r.toggle, r.err, reqs ++ r.reqs⟩
        else if jsOrTruthy localLambdaInsights globalLambdaInsights then
          let fn' : FunctionSpec :=
            { fn with layers := some (fn.layers.getD [] ++ [layerARN]) }
          let r := processFunctions env globalLambdaInsights layerVersion rest true
          ⟨(name, fn') :: r.fns, r.toggle, r.err, reqs ++ r.reqs⟩
        else
          let r := processFunctions env globalLambdaInsights layerVersion rest toggle
          ⟨(name, fn) :: r.fns, r.toggle, r.err, reqs ++ r.reqs⟩

/-- Outcome of a run: the service state after all in-place mutation, the
error thrown (if any), and the remote requests issued, in order. -/
structure RunResult where
  state : ServiceState
  err : Option PluginError
  reqs : List String
deriving DecidableEq, Repr

/-- `addLambdaInsightsToFunctions(globalLambdaInsights, layerVersion, attachPolicy)`:
return unchanged when `typeof service.functions !== 'object'`; fail with a
TypeError when it is `null` (which passes that guard); otherwise run the
per-function loop and, when it completes without error, append the managed
policy to `provider.iamManagedPolicies` exactly when `attachPolicy` and
`policyToggle` both hold. -/
def addLambdaInsightsToFunctions (env : Env) (svc : ServiceState)
    (globalLambdaInsights : Option Bool) (layerVersion : Option Int)
    (attachPolicy : Bool) : RunResult :=
  match svc.functions with
  | .vMap fns =>
    let r := processFunctions env globalLambdaInsights layerVersion fns false
    let svc' : ServiceState := { svc with functions := .vMap r.fns }
    match r.err with
    | some e => ⟨svc', some e, r.reqs⟩
    | none =>
      if attachPolicy ∧ r.toggle then
        let pushed := some (svc'.iamManagedPolicies.getD [] ++ [lambdaInsightsManagedPolicy])
        ⟨{ svc' with iamManagedPolicies := pushed }, none, r.reqs⟩
      else ⟨svc', none, r.reqs⟩
  | .vNull => ⟨svc, some .nullFunctionsTypeError, []⟩
  | _ => ⟨svc, none, []⟩

/-- The `custom.lambdaInsights` configuration block; each field is the raw
value when the property is present. -/
structure CustomBlock where
  defaultLambdaInsights : Option JSVal
  attachPolicy : Option JSVal
  lambdaInsightsVersion : Option JSVal
deriving DecidableEq, Repr

/-- `customLambdaInsights && customLambdaInsights.defaultLambdaInsights ? checkLambdaInsightsType(...) : null`:
the type check runs only when the raw value is truthy; a falsy value (of
any type) yields `null`. -/
def resolveGlobalInsights (custom : Option CustomBlock) :
    Except PluginError (Option Bool) :=
  match custom with
  | some c =>
    match c.defaultLambdaInsights with
    | some v => if v.truthy then (checkLambdaInsightsType v).map some else .ok none
    | none => .ok none
  | none => .ok none

/-- `customLambdaInsights && customLambdaInsights.hasOwnProperty('attachPolicy') ? checkLambdaInsightsType(...) : true`:
the type check runs whenever the property is present; absence defaults to
`true`. -/
def resolveAttachPolicy (custom : Option CustomBlock) : Except PluginError Bool :=
  match custom with
  | some c =>
    match c.attachPolicy with
    | some v => checkLambdaInsightsType v
    | none => .ok true
  | none => .ok true

/-- `customLambdaInsights && customLambdaInsights.lambdaInsightsVersion ? checkLambdaInsightsVersion(...) : null`:
the type check runs only when the raw value is truthy; a falsy value (of
any type) yields `null`. -/
def resolveLayerVersion (custom : Option CustomBlock) :
    Except PluginError (Option Int) :=
  match custom with
  | some c =>
    match c.lambdaInsightsVersion with
    | some v => if v.truthy then (checkLambdaInsightsVersion v).map some else .ok none
    | none => .ok none
  | none => .ok none

/-- The `addLambdaInsights` hook: resolve the global toggle, the policy
toggle and the explicit version from the custom block, in that order, each
resolution throwing on a failed type check before any function is touched
and before any remote call; then run `addLambdaInsightsToFunctions`. -/
def addLambdaInsights (env : Env) (svc : ServiceState) (custom : Option CustomBlock) :
    RunResult :=
  match resolveGlobalInsights custom with
  | .error e => ⟨svc, some e, []⟩
  | .ok globalLambdaInsights =>
    match resolveAttachPolicy custom with
    | .error e => ⟨svc, some e, []⟩
    | .ok attachPolicy =>
      match resolveLayerVersion custom with
      | .error e => ⟨svc, some e, []⟩
      | .ok layerVersion =>
        addLambdaInsightsToFunctions env svc globalLambdaInsights layerVersion attachPolicy

/-! Derived notions used to state the claims. -/

/-- A function is effectively enabled when its own toggle is explicitly
`true`, or its toggle is unset and the global default is `true`. -/
def effectiveEnabled (g : Option Bool) (fn : FunctionSpec) : Bool :=
  fn.lambdaInsights = some (.vBool true) ∨
    (fn.lambdaInsights = none ∧ g = some true)

/-- The ARN `generateLayerARN` yields for a function (junk when it fails;
only used under a success hypothesis). -/
def fnArnOf (env : Env) (v : Option Int) (fn : FunctionSpec) : String :=
  match (generateLayerARN env v fn.architecture).1 with
  | .ok a => a
  | .error _ => ""

/-- The per-function transform a successful run applies: append the
resolved ARN to the layers of an effectively enabled function, leave a
disabled function unchanged. -/
def stepFn (env : Env) (g : Option Bool) (v : Option Int) :
    String × FunctionSpec → String × FunctionSpec
  | (name, fn) =>
    if effectiveEnabled g fn then
      (name, { fn with layers := some (fn.layers.getD [] ++ [fnArnOf env v fn]) })
    else (name, fn)

/-- The error processing one function raises, if any: the ARN-resolution
error first, else the local-toggle type error. -/
def fnStepError (env : Env) (v : Option Int) (fn : FunctionSpec) :
    Option PluginError :=
  match (generateLayerARN env v fn.architecture).1 with
  | .error e => some e
  | .ok _ =>
    match localInsightsOf fn with
    | .error e => some e
    | .ok _ => none

/-- Modelled from the spec (§4.1 resolveLayerIdentifier, architecture
rule): the resolved architecture is the function's own declared
architecture, else the deployment-wide one, else `x86_64`. Stated from the
spec's words for comparison with the source's `isArm64`. -/
def specResolvedArchitecture (fnArch providerArch : Option String) : String :=
  match fnArch with
  | some a => a
  | none =>
    match providerArch with
    | some p => p
    | none => "x86_64"

/-! Helper lemmas. -/

lemma localInsightsOf_eq_ok (fn : FunctionSpec) (l : Option Bool) :
    localInsightsOf fn = .ok l ↔ fn.lambdaInsights = l.map JSVal.vBool := by
  cases hfi : fn.lambdaInsights with
  | none => cases l <;> simp [localInsightsOf, hfi]
  | some v => cases v <;> cases l <;>
      simp [localInsightsOf, checkLambdaInsightsType, hfi, Except.map]

lemma generateLayerARN_reqs (env : Env) (v : Option Int) (fnArch : Option String) :
    (generateLayerARN env v fnArch).2 =
      if versionTruthy v then
        [if isArm64 fnArch env.providerArch then armArnTemplate env.region (v.getD 0)
         else x86ArnTemplate env.region (v.getD 0)]
      else [] := by
  by_cases hv : versionTruthy v = true
  · simp only [generateLayerARN, hv, if_pos trivial]
    cases env.remote (if isArm64 fnArch env.providerArch then
        armArnTemplate env.region (v.getD 0) else x86ArnTemplate env.region (v.getD 0)) with
    | ok a => simp
    | error e => by_cases hc : e.code = some "AccessDeniedException" <;> simp [hc]
  · simp only [Bool.not_eq_true] at hv
    simp only [generateLayerARN, hv, Bool.false_eq_true, if_false]
    cases (if isArm64 fnArch env.providerArch then env.armTable else env.x86Table) env.region with
    | none => simp
    | some a => by_cases ha : a = "" <;> simp [ha]

/-- Success of the per-function loop: every function is transformed by
`stepFn`, `policyToggle` records whether any function was effectively
enabled, and one remote-request batch is emitted per function in order. -/
lemma processFunctions_ok (env : Env) (g : Option Bool) (v : Option Int) :
    ∀ (fns : List (String × FunctionSpec)) (t : Bool),
      (processFunctions env g v fns t).err = none →
      (processFunctions env g v fns t).fns = fns.map (stepFn env g v) ∧
      (processFunctions env g v fns t).toggle =
        (t || fns.any fun p => effectiveEnabled g p.2) ∧
      (processFunctions env g v fns t).reqs =
        fns.flatMap fun p => (generateLayerARN env v p.2.architecture).2
  | [], t, _ => by simp [processFunctions]
  | (name, fn) :: rest, t, hok => by
    rcases hg : generateLayerARN env v fn.architecture with ⟨res, reqs⟩
    cases res with
    | error e => simp [processFunctions, hg] at hok
    | ok arn =>
      rcases hl : localInsightsOf fn with e | l
      · simp [processFunctions, hg, hl] at hok
      · have hli : fn.lambdaInsights = l.map JSVal.vBool :=
          (localInsightsOf_eq_ok fn l).mp hl
        have harn : fnArnOf env v fn = arn := by simp [fnArnOf, hg]
        rcases l with _ | b
        · -- local toggle unset
          rcases g with _ | gb
          · -- both unset: skip branch
            have hok' : (processFunctions env none v rest t).err = none := by
              simpa [processFunctions, hg, hl] using hok
            obtain ⟨h1, h2, h3⟩ := processFunctions_ok env none v rest t hok'
            simp [processFunctions, hg, hl, h1, h2, h3, stepFn, effectiveEnabled, hli]
          · -- global set: effective toggle is the global value
            cases gb
            · have hok' : (processFunctions env (some false) v rest t).err = none := by
                simpa [processFunctions, hg, hl, jsOrTruthy] using hok
              obtain ⟨h1, h2, h3⟩ := processFunctions_ok env (some false) v rest t hok'
              simp [processFunctions, hg, hl, jsOrTruthy, h1, h2, h3, stepFn,
                effectiveEnabled, hli]
            · have hok' : (processFunctions env (some true) v rest true).err = none := by
                simpa [processFunctions, hg, hl, jsOrTruthy] using hok
              obtain ⟨h1, h2, h3⟩ := processFunctions_ok env (some true) v rest true hok'
              simp [processFunctions, hg, hl, jsOrTruthy, h1, h2, h3, stepFn,
                effectiveEnabled, hli, harn]
        · cases b
          · -- local false: skip branch
            have hok' : (processFunctions env g v rest t).err = none := by
              simpa [processFunctions, hg, hl] using hok
            obtain ⟨h1, h2, h3⟩ := processFunctions_ok env g v rest t hok'
            simp [processFunctions, hg, hl, h1, h2, h3, stepFn, effectiveEnabled, hli]
          · -- local true: layer appended
            have hok' : (processFunctions env g v rest true).err = none := by
              simpa [processFunctions, hg, hl, jsOrTruthy] using hok
            obtain ⟨h1, h2, h3⟩ := processFunctions_ok env g v rest true hok'
            simp [processFunctions, hg, hl, jsOrTruthy, h1, h2, h3, stepFn,
              effectiveEnabled, hli, harn]

/-- Failure of the per-function loop: the input splits into a processed
prefix (each function error-free and transformed by `stepFn`), the failing
function, whose step error is the propagated one, and an untouched
suffix. -/
lemma processFunctions_err (env : Env) (g : Option Bool) (v : Option Int) :
    ∀ (fns : List (String × FunctionSpec)) (t : Bool) (e : PluginError),
      (processFunctions env g v fns t).err = some e →
      ∃ pre nm fn post, fns = pre ++ (nm, fn) :: post ∧
        (processFunctions env g v fns t).fns =
          pre.map (stepFn env g v) ++ (nm, fn) :: post ∧
        (∀ p ∈ pre, fnStepError env v p.2 = none) ∧
        fnStepError env v fn = some e
  | [], t, e, he => by simp [processFunctions] at he
  | (name, fn) :: rest, t, e, he => by
    rcases hg : generateLayerARN env v fn.architecture with ⟨res, reqs⟩
    cases res with
    | error e0 =>
      refine ⟨[], name, fn, rest, by simp, ?_, by simp, ?_⟩
      · simp [processFunctions, hg]
      · have : e0 = e := by simpa [processFunctions, hg] using he
        simp [fnStepError, hg, this]
    | ok arn =>
      rcases hl : localInsightsOf fn with e0 | l
      · refine ⟨[], name, fn, rest, by simp, ?_, by simp, ?_⟩
        · simp [processFunctions, hg, hl]
        · have : e0 = e := by simpa [processFunctions, hg, hl] using he
          simp [fnStepError, hg, hl, this]
      · have hli : fn.lambdaInsights = l.map JSVal.vBool :=
          (localInsightsOf_eq_ok fn l).mp hl
        have harn : fnArnOf env v fn = arn := by simp [fnArnOf, hg]
        have hstep : fnStepError env v fn = none := by simp [fnStepError, hg, hl]
        rcases l with _ | b
        · rcases g with _ | gb
          · have he' : (processFunctions env none v rest t).err = some e := by
              simpa [processFunctions, hg, hl] using he
            obtain ⟨pre, nm, f, post, h1, h2, h3, h4⟩ :=
              processFunctions_err env none v rest t e he'
            refine ⟨(name, fn) :: pre, nm, f, post, by simp [h1], ?_, ?_, h4⟩
            · simp [processFunctions, hg, hl, h2, stepFn, effectiveEnabled, hli]
            · intro p hp
              rcases List.mem_cons.mp hp with h | h
              · subst h; exact hstep
              · exact h3 p h
          · cases gb
            · have he' : (processFunctions env (some false) v rest t).err = some e := by
                simpa [processFunctions, hg, hl, jsOrTruthy] using he
              obtain ⟨pre, nm, f, post, h1, h2, h3, h4⟩ :=
                processFunctions_err env (some false) v rest t e he'
              refine ⟨(name, fn) :: pre, nm, f, post, by simp [h1], ?_, ?_, h4⟩
              · simp [processFunctions, hg, hl, jsOrTruthy, h2, stepFn,
                  effectiveEnabled, hli]
              · intro p hp
                rcases List.mem_cons.mp hp with h | h
                · subst h; exact hstep
                · exact h3 p h
            · have he' : (processFunctions env (some true) v rest true).err = some e := by
                simpa [processFunctions, hg, hl, jsOrTruthy] using he
              obtain ⟨pre, nm, f, post, h1, h2, h3, h4⟩ :=
                processFunctions_err env (some true) v rest true e he'
              refine ⟨(name, fn) :: pre, nm, f, post, by simp [h1], ?_, ?_, h4⟩
              · simp [processFunctions, hg, hl, jsOrTruthy, h2, stepFn,
                  effectiveEnabled, hli, harn]
              · intro p hp
                rcases List.mem_cons.mp hp with h | h
                · subst h; exact hstep
                · exact h3 p h
        · cases b
          · have he' : (processFunctions env g v rest t).err = some e := by
              simpa [processFunctions, hg, hl] using he
            obtain ⟨pre, nm, f, post, h1, h2, h3, h4⟩ :=
              processFunctions_err env g v rest t e he'
            refine ⟨(name, fn) :: pre, nm, f, post, by simp [h1], ?_, ?_, h4⟩
            · simp [processFunctions, hg, hl, h2, stepFn, effectiveEnabled, hli]
            · intro p hp
              rcases List.mem_cons.mp hp with h | h
              · subst h; exact hstep
              · exact h3 p h
          · have he' : (processFunctions env g v rest true).err = some e := by
              simpa [processFunctions, hg, hl, jsOrTruthy] using he
            obtain ⟨pre, nm, f, post, h1, h2, h3, h4⟩ :=
              processFunctions_err env g v rest true e he'
            refine ⟨(name, fn) :: pre, nm, f, post, by simp [h1], ?_, ?_, h4⟩
            · simp [processFunctions, hg, hl, jsOrTruthy, h2, stepFn,
                effectiveEnabled, hli, harn]
            · intro p hp
              rcases List.mem_cons.mp hp with h | h
              · subst h; exact hstep
              · exact h3 p h

lemma flatMap_singleton_eq_map {α β : Type} (l : List α) (f : α → β) :
    (l.flatMap fun a => [f a]) = l.map f := by
  induction l with
  | nil => rfl
  | cons a l ih => simp [List.flatMap_cons, ih]

/-! Concrete fixtures used by witnesses and counterexamples. -/

/-- A region whose entry exists in both static tables, with a remote oracle
that confirms every requested ARN. -/
def envA : Env :=
  { region := "us-east-1", providerArch := none,
    remote := fun a => .ok a,
    x86Table := fun r => if r = "us-east-1" then some "AX14" else none,
    armTable := fun r => if r = "us-east-1" then some "AA2" else none }

/-- A region present in the x86 table but absent from the arm64 table. -/
def envB : Env :=
  { region := "r1", providerArch := none,
    remote := fun a => .ok a,
    x86Table := fun r => if r = "r1" then some "AX" else none,
    armTable := fun _ => none }

/-- A remote oracle mirroring the repository's test double: version 12 of
the x86 layer exists, nothing else does. -/
def envD : Env :=
  { region := "us-east-1", providerArch := none,
    remote := fun a =>
      if a = x86ArnTemplate "us-east-1" 12 then .ok a
      else .error ⟨some "AccessDeniedException", "denied"⟩,
    x86Table := fun r => if r = "us-east-1" then some "AX14" else none,
    armTable := fun _ => none }

/-- A remote oracle failing with a non-AccessDenied error. -/
def envE : Env :=
  { region := "us-east-1", providerArch := none,
    remote := fun _ => .error ⟨some "Throttling", "throttled"⟩,
    x86Table := fun _ => none, armTable := fun _ => none }

def fnOn : FunctionSpec :=
  { lambdaInsights := some (.vBool true), architecture := none, layers := none }

def fnOff : FunctionSpec :=
  { lambdaInsights := some (.vBool false), architecture := none, layers := none }

def fnUnset : FunctionSpec :=
  { lambdaInsights := none, architecture := none, layers := none }

def fnArm : FunctionSpec :=
  { lambdaInsights := some (.vBool true), architecture := some "arm64", layers := none }

def svcA : ServiceState :=
  ⟨.vMap [("f1", fnOn), ("f2", fnOff), ("f3", fnUnset)], none⟩

def svcB : ServiceState := ⟨.vMap [("f1", fnOn), ("f2", fnArm)], none⟩

def svcC : ServiceState := ⟨.vMap [("f1", fnOff)], none⟩

def svcD : ServiceState := ⟨.vMap [("f1", fnOn), ("f2", fnOff)], none⟩

def svcNoFns : ServiceState := ⟨.vMap [], none⟩

def svcNull : ServiceState := ⟨.vNull, none⟩

/-! The claims. -/

/-- C1: in a successful run, a layer identifier is appended to a function's
layers exactly when its own toggle is explicitly `true`, or its toggle is
unset and the global default is `true`; an explicit `false` or a doubly
unset toggle leaves the layers untouched, and an enabled function receives
exactly one appended identifier. -/
theorem claim_C1_layer_append (env : Env) (svc : ServiceState) (g : Option Bool)
    (v : Option Int) (ap : Bool) (fns : List (String × FunctionSpec))
    (hf : svc.functions = .vMap fns)
    (hok : (addLambdaInsightsToFunctions env svc g v ap).err = none) :
    (addLambdaInsightsToFunctions env svc g v ap).state.functions =
      .vMap (fns.map fun p =>
        if p.2.lambdaInsights = some (.vBool true) ∨
            (p.2.lambdaInsights = none ∧ g = some true) then
          (p.1, { p.2 with layers := some (p.2.layers.getD [] ++ [fnArnOf env v p.2]) })
        else p) := by
  rcases hr : processFunctions env g v fns false with ⟨fns', tog, errv, reqs⟩
  cases errv with
  | some e => exfalso; simp [addLambdaInsightsToFunctions, hf, hr] at hok
  | none =>
    obtain ⟨h1, h2, h3⟩ := processFunctions_ok env g v fns false (by simp [hr])
    have h1' : fns' = List.map (stepFn env g v) fns := by rw [hr] at h1; exact h1
    have hfun : (addLambdaInsightsToFunctions env svc g v ap).state.functions =
        .vMap fns' := by
      simp only [addLambdaInsightsToFunctions, hf, hr]
      split <;> rfl
    rw [hfun, h1']
    congr 1
    apply List.map_congr_left
    intro p _
    rcases p with ⟨nm, fn⟩
    by_cases hp : fn.lambdaInsights = some (.vBool true) ∨
        (fn.lambdaInsights = none ∧ g = some true)
    · simp [stepFn, effectiveEnabled, hp]
    · simp [stepFn, effectiveEnabled, hp]

/-- C1 witness: a three-function run (explicit true, explicit false, unset)
with an unset global default. -/
theorem claim_C1_witness :
    (addLambdaInsightsToFunctions envA svcA none none true).state.functions =
      .vMap ([("f1", fnOn), ("f2", fnOff), ("f3", fnUnset)].map fun p =>
        if p.2.lambdaInsights = some (.vBool true) ∨
            (p.2.lambdaInsights = none ∧ (none : Option Bool) = some true) then
          (p.1, { p.2 with layers := some (p.2.layers.getD [] ++ [fnArnOf envA none p.2]) })
        else p) :=
  claim_C1_layer_append envA svcA none none true _ rfl rfl

/-- C2: after a successful run the managed-policy list holds exactly one
occurrence of the policy identifier when the resolved attachPolicy is true
(its default for an unset option) and at least one function was enabled,
and zero occurrences otherwise, provided it held none before the run. -/
theorem claim_C2_policy_once (env : Env) (svc : ServiceState)
    (custom : Option CustomBlock) (g : Option Bool) (ap : Bool) (v : Option Int)
    (fns : List (String × FunctionSpec))
    (hf : svc.functions = .vMap fns)
    (hg : resolveGlobalInsights custom = .ok g)
    (ha : resolveAttachPolicy custom = .ok ap)
    (hv : resolveLayerVersion custom = .ok v)
    (hok : (addLambdaInsights env svc custom).err = none)
    (hinit : (svc.iamManagedPolicies.getD []).count lambdaInsightsManagedPolicy = 0) :
    ((addLambdaInsights env svc custom).state.iamManagedPolicies.getD []).count
        lambdaInsightsManagedPolicy =
      if ap = true ∧ (fns.any fun p => effectiveEnabled g p.2) = true then 1 else 0 := by
  have hrun : addLambdaInsights env svc custom =
      addLambdaInsightsToFunctions env svc g v ap := by
    simp [addLambdaInsights, hg, ha, hv]
  rw [hrun] at hok ⊢
  rcases hr : processFunctions env g v fns false with ⟨fns', tog, errv, reqs⟩
  cases errv with
  | some e => exfalso; simp [addLambdaInsightsToFunctions, hf, hr] at hok
  | none =>
    obtain ⟨h1, h2, h3⟩ := processFunctions_ok env g v fns false (by simp [hr])
    have h2' : tog = (fns.any fun p => effectiveEnabled g p.2) := by
      rw [hr] at h2; simpa using h2
    by_cases hc : ap = true ∧ tog = true
    · have hpol : (addLambdaInsightsToFunctions env svc g v ap).state.iamManagedPolicies =
          some (svc.iamManagedPolicies.getD [] ++ [lambdaInsightsManagedPolicy]) := by
        simp only [addLambdaInsightsToFunctions, hf, hr]
        simp [hc.1, hc.2]
      rw [hpol, ← h2']
      simp [List.count_append, hinit, hc.1, hc.2]
    · have hpol : (addLambdaInsightsToFunctions env svc g v ap).state.iamManagedPolicies =
          svc.iamManagedPolicies := by
        simp only [addLambdaInsightsToFunctions, hf, hr]
        split
        · simp_all
        · rfl
      rw [hpol, hinit, ← h2']
      exact (if_neg hc).symm

/-- C2 witness: one enabled function, no custom block (attachPolicy
defaults to true), starting from an undefined policy list. -/
theorem claim_C2_witness :
    ((addLambdaInsights envA svcA none).state.iamManagedPolicies.getD []).count
        lambdaInsightsManagedPolicy =
      if true = true ∧
          ([("f1", fnOn), ("f2", fnOff), ("f3", fnUnset)].any fun p =>
            effectiveEnabled none p.2) = true then 1 else 0 :=
  claim_C2_policy_once envA svcA none none true none _ rfl rfl rfl rfl rfl rfl

/-- C10: whenever the run aborts with an error, the managed-policy list is
left exactly as it was before the run. -/
theorem claim_C10_policy_untouched_on_failure (env : Env) (svc : ServiceState)
    (g : Option Bool) (v : Option Int) (ap : Bool) (e : PluginError)
    (he : (addLambdaInsightsToFunctions env svc g v ap).err = some e) :
    (addLambdaInsightsToFunctions env svc g v ap).state.iamManagedPolicies =
      svc.iamManagedPolicies := by
  rcases svc with ⟨f, pol⟩
  cases f with
  | vMap fns =>
    rcases hr : processFunctions env g v fns false with ⟨fns', tog, errv, reqs⟩
    cases errv with
    | some e0 => simp [addLambdaInsightsToFunctions, hr]
    | none =>
      exfalso
      simp only [addLambdaInsightsToFunctions, hr] at he
      split at he <;> simp_all
  | vNull => rfl
  | vUndefined => rfl
  | vStr s => rfl
  | vNum n => rfl
  | vBool b => rfl

/-- C10 witness: a two-function run failing on the second function's layer
resolution leaves the (undefined) policy list untouched. -/
theorem claim_C10_witness :
    (addLambdaInsightsToFunctions envB svcB none none true).state.iamManagedPolicies =
      svcB.iamManagedPolicies :=
  claim_C10_policy_untouched_on_failure envB svcB none none true
    (.unknownRegion "r1") rfl

/-- C7 counterexample: with region `r1` present in the x86 table but absent
from the arm64 table, a run over an enabled x86 function followed by an
arm64 function aborts on the second function, yet the first function's
layers list has already been mutated — partial application does occur. -/
theorem claim_C7_counterexample :
    (addLambdaInsightsToFunctions envB svcB none none true).err =
      some (.unknownRegion "r1") ∧
    (addLambdaInsightsToFunctions envB svcB none none true).state.functions =
      .vMap [("f1", { fnOn with layers := some ["AX"] }), ("f2", fnArm)] ∧
    fnOn.layers = none :=
  ⟨rfl, rfl, rfl⟩

/-- C7 amended: a failing run aborts with the first error, functions from
the failing one onward are left untouched and the policy list is never
mutated, but functions processed before the failure keep their appended
layers. -/
theorem claim_C7_amended (env : Env) (svc : ServiceState) (g : Option Bool)
    (v : Option Int) (ap : Bool) (e : PluginError) (fns : List (String × FunctionSpec))
    (hf : svc.functions = .vMap fns)
    (he : (addLambdaInsightsToFunctions env svc g v ap).err = some e) :
    (addLambdaInsightsToFunctions env svc g v ap).state.iamManagedPolicies =
      svc.iamManagedPolicies ∧
    ∃ pre nm fn post, fns = pre ++ (nm, fn) :: post ∧
      (addLambdaInsightsToFunctions env svc g v ap).state.functions =
        .vMap (pre.map (stepFn env g v) ++ (nm, fn) :: post) ∧
      (∀ p ∈ pre, fnStepError env v p.2 = none) ∧
      fnStepError env v fn = some e := by
  rcases hr : processFunctions env g v fns false with ⟨fns', tog, errv, reqs⟩
  cases errv with
  | none =>
    exfalso
    simp only [addLambdaInsightsToFunctions, hf, hr] at he
    split at he <;> simp_all
  | some e0 =>
    have he0 : e0 = e := by
      simpa [addLambdaInsightsToFunctions, hf, hr] using he
    subst he0
    obtain ⟨pre, nm, fn, post, h1, h2, h3, h4⟩ :=
      processFunctions_err env g v fns false e0 (by simp [hr])
    have h2' : fns' = pre.map (stepFn env g v) ++ (nm, fn) :: post := by
      rw [hr] at h2; exact h2
    refine ⟨by simp [addLambdaInsightsToFunctions, hf, hr], pre, nm, fn, post, h1, ?_, h3, h4⟩
    simp [addLambdaInsightsToFunctions, hf, hr, h2']

/-- C7 witness: the failing two-function run decomposes into a processed
prefix, the failing function and an untouched suffix, policy list intact. -/
theorem claim_C7_witness :
    (addLambdaInsightsToFunctions envB svcB none none true).state.iamManagedPolicies =
      svcB.iamManagedPolicies ∧
    ∃ pre nm fn post, [("f1", fnOn), ("f2", fnArm)] = pre ++ (nm, fn) :: post ∧
      (addLambdaInsightsToFunctions envB svcB none none true).state.functions =
        .vMap (pre.map (stepFn envB none none) ++ (nm, fn) :: post) ∧
      (∀ p ∈ pre, fnStepError envB none p.2 = none) ∧
      fnStepError envB none fn = some (.unknownRegion "r1") :=
  claim_C7_amended envB svcB none none true (.unknownRegion "r1") _ rfl rfl

/-- C8 counterexample: a descriptor whose functions collection is `null`
(not a mapping) does not make the run a benign no-op; `null` passes the
`typeof !== 'object'` guard and the run fails with a TypeError. -/
theorem claim_C8_counterexample :
    (addLambdaInsightsToFunctions envA svcNull none none true).err =
      some .nullFunctionsTypeError :=
  rfl

/-- C8 amended: when the functions collection is absent or of a non-object
JavaScript type, the run is an error-free no-op; when it is `null` — whose
`typeof` is `'object'` — the run fails with the `Object.keys(null)`
TypeError, mutating nothing. -/
theorem claim_C8_amended (env : Env) (svc : ServiceState) (g : Option Bool)
    (v : Option Int) (ap : Bool) :
    (typeofIsObject svc.functions = false →
      addLambdaInsightsToFunctions env svc g v ap = ⟨svc, none, []⟩) ∧
    (svc.functions = .vNull →
      addLambdaInsightsToFunctions env svc g v ap =
        ⟨svc, some .nullFunctionsTypeError, []⟩) := by
  rcases svc with ⟨f, pol⟩
  cases f <;> simp [addLambdaInsightsToFunctions, typeofIsObject]

/-- C8 witness: a primitive functions value is an error-free no-op, and a
`null` one fails with the TypeError, both without mutation. -/
theorem claim_C8_witness :
    (addLambdaInsightsToFunctions envA ⟨.vStr "nope", none⟩ none none true =
      ⟨⟨.vStr "nope", none⟩, none, []⟩) ∧
    (addLambdaInsightsToFunctions envA svcNull none none true =
      ⟨svcNull, some .nullFunctionsTypeError, []⟩) :=
  ⟨(claim_C8_amended envA ⟨.vStr "nope", none⟩ none none true).1 rfl,
   (claim_C8_amended envA svcNull none none true).2 rfl⟩

/-- C9 counterexample: with an explicit version, the remote existence check
is issued even for a function that is not enabled — here a single function
with toggle explicitly `false` still triggers one remote request. -/
theorem claim_C9_counterexample :
    (addLambdaInsightsToFunctions envA svcC none (some 14) true).err = none ∧
    effectiveEnabled none fnOff = false ∧
    (addLambdaInsightsToFunctions envA svcC none (some 14) true).reqs =
      [x86ArnTemplate "us-east-1" 14] :=
  ⟨rfl, rfl, rfl⟩

/-- C9 amended: in a successful run the remote existence check is issued
exactly once per declared function — enabled or not — in declaration order
whenever a truthy explicit version is configured, and never otherwise. -/
theorem claim_C9_amended (env : Env) (svc : ServiceState) (g : Option Bool)
    (v : Option Int) (ap : Bool) (fns : List (String × FunctionSpec))
    (hf : svc.functions = .vMap fns)
    (hok : (addLambdaInsightsToFunctions env svc g v ap).err = none) :
    (addLambdaInsightsToFunctions env svc g v ap).reqs =
      fns.flatMap (fun p =>
        if versionTruthy v then
          [if isArm64 p.2.architecture env.providerArch then
             armArnTemplate env.region (v.getD 0)
           else x86ArnTemplate env.region (v.getD 0)]
        else []) ∧
    (versionTruthy v = false → (addLambdaInsightsToFunctions env svc g v ap).reqs = []) ∧
    (versionTruthy v = true →
      (addLambdaInsightsToFunctions env svc g v ap).reqs.length = fns.length) := by
  rcases hr : processFunctions env g v fns false with ⟨fns', tog, errv, reqs⟩
  cases errv with
  | some e => exfalso; simp [addLambdaInsightsToFunctions, hf, hr] at hok
  | none =>
    obtain ⟨h1, h2, h3⟩ := processFunctions_ok env g v fns false (by simp [hr])
    have h3' : reqs = fns.flatMap fun p => (generateLayerARN env v p.2.architecture).2 := by
      rw [hr] at h3; exact h3
    have hreq : (addLambdaInsightsToFunctions env svc g v ap).reqs = reqs := by
      simp only [addLambdaInsightsToFunctions, hf, hr]
      split <;> rfl
    have hflat : (addLambdaInsightsToFunctions env svc g v ap).reqs =
        fns.flatMap (fun p =>
          if versionTruthy v then
            [if isArm64 p.2.architecture env.providerArch then
              armArnTemplate env.region (v.getD 0)
            else x86ArnTemplate env.region (v.getD 0)]
          else []) := by
      rw [hreq, h3']
      apply List.flatMap_congr
      intro p _
      exact generateLayerARN_reqs env v p.2.architecture
    refine ⟨hflat, ?_, ?_⟩
    · intro hv
      rw [hflat]
      simp [hv]
    · intro hv
      rw [hflat]
      have : (fns.flatMap (fun p =>
          if versionTruthy v then
            [if isArm64 p.2.architecture env.providerArch then
              armArnTemplate env.region (v.getD 0)
            else x86ArnTemplate env.region (v.getD 0)]
          else [])) = fns.map (fun p =>
            if isArm64 p.2.architecture env.providerArch then
              armArnTemplate env.region (v.getD 0)
            else x86ArnTemplate env.region (v.getD 0)) := by
        rw [← flatMap_singleton_eq_map]
        apply List.flatMap_congr
        intro p _
        simp [hv]
      rw [this, List.length_map]

/-- C9 witness: a two-function run (one enabled, one disabled) with
explicit version 14 issues exactly two remote checks, in order. -/
theorem claim_C9_witness :
    (addLambdaInsightsToFunctions envA svcD none (some 14) true).reqs =
      [("f1", fnOn), ("f2", fnOff)].flatMap (fun p =>
        if versionTruthy (some 14) then
          [if isArm64 p.2.architecture envA.providerArch then
             armArnTemplate envA.region ((some (14 : Int)).getD 0)
           else x86ArnTemplate envA.region ((some (14 : Int)).getD 0)]
        else []) ∧
    (versionTruthy (some 14) = false →
      (addLambdaInsightsToFunctions envA svcD none (some 14) true).reqs = []) ∧
    (versionTruthy (some 14) = true →
      (addLambdaInsightsToFunctions envA svcD none (some 14) true).reqs.length =
        [("f1", fnOn), ("f2", fnOff)].length) :=
  claim_C9_amended envA svcD none (some 14) true _ rfl rfl

def cFalsyDefault : CustomBlock := ⟨some (.vNum 0), none, none⟩

def cTruthyNonBoolDefault : CustomBlock := ⟨some (.vNum 1), none, none⟩

def cAttachNonBool : CustomBlock := ⟨none, some (.vStr "yes"), none⟩

def fnBadToggle : FunctionSpec :=
  { lambdaInsights := some (.vStr "yes"), architecture := none, layers := none }

/-- C3 counterexample: a falsy non-boolean `defaultLambdaInsights` (the
number `0`) does not fail the run — the truthiness guard in front of the
type check silently treats it as unset. -/
theorem claim_C3_counterexample :
    (JSVal.vNum 0).isBool = false ∧
    (addLambdaInsights envA svcNoFns (some cFalsyDefault)).err = none :=
  ⟨rfl, rfl⟩

/-- C3 amended: the boolean type check itself rejects every non-boolean
without coercion; a non-boolean per-function toggle or attachPolicy value
fails the run with that error; a non-boolean `defaultLambdaInsights` fails
the run only when it is truthy — a falsy one is silently resolved to
unset. -/
theorem claim_C3_amended :
    (∀ w : JSVal, w.isBool = false →
      checkLambdaInsightsType w = .error .invalidBoolType) ∧
    (∀ (env : Env) (svc : ServiceState) (c : CustomBlock) (w : JSVal),
      c.defaultLambdaInsights = some w → w.isBool = false → w.truthy = true →
      (addLambdaInsights env svc (some c)).err = some .invalidBoolType) ∧
    (∀ (c : CustomBlock) (w : JSVal),
      c.defaultLambdaInsights = some w → w.isBool = false → w.truthy = false →
      resolveGlobalInsights (some c) = .ok none) ∧
    (∀ (env : Env) (svc : ServiceState) (c : CustomBlock) (w : JSVal) (g : Option Bool),
      c.attachPolicy = some w → w.isBool = false →
      resolveGlobalInsights (some c) = .ok g →
      (addLambdaInsights env svc (some c)).err = some .invalidBoolType) ∧
    (∀ (env : Env) (g : Option Bool) (lv : Option Int) (name : String)
        (fn : FunctionSpec) (rest : List (String × FunctionSpec)) (t : Bool)
        (w : JSVal) (a : String),
      fn.lambdaInsights = some w → w.isBool = false →
      (generateLayerARN env lv fn.architecture).1 = .ok a →
      (processFunctions env g lv ((name, fn) :: rest) t).err =
        some .invalidBoolType) := by
  have hchk : ∀ w : JSVal, w.isBool = false →
      checkLambdaInsightsType w = .error .invalidBoolType := by
    intro w hw
    cases w
    case vBool b => simp [JSVal.isBool] at hw
    all_goals rfl
  refine ⟨hchk, ?_, ?_, ?_, ?_⟩
  · intro env svc c w hc hw ht
    simp [addLambdaInsights, resolveGlobalInsights, hc, ht, hchk w hw, Except.map]
  · intro c w hc hw ht
    simp [resolveGlobalInsights, hc, ht]
  · intro env svc c w g hc hw hg
    simp [addLambdaInsights, hg, resolveAttachPolicy, hc, hchk w hw]
  · intro env g lv name fn rest t w a hfn hw ha
    rcases hga : generateLayerARN env lv fn.architecture with ⟨res, reqs⟩
    have hres : res = .ok a := by rw [hga] at ha; exact ha
    subst hres
    simp [processFunctions, hga, localInsightsOf, hfn, hchk w hw, Except.map]

/-- C3 witness: each strand of the amended claim at a concrete input. -/
theorem claim_C3_witness :
    checkLambdaInsightsType (.vStr "yes") = .error .invalidBoolType ∧
    (addLambdaInsights envA svcNoFns (some cTruthyNonBoolDefault)).err =
      some .invalidBoolType ∧
    resolveGlobalInsights (some cFalsyDefault) = .ok none ∧
    (addLambdaInsights envA svcNoFns (some cAttachNonBool)).err =
      some .invalidBoolType ∧
    (processFunctions envA none none [("f", fnBadToggle)] false).err =
      some .invalidBoolType :=
  ⟨claim_C3_amended.1 _ rfl,
   claim_C3_amended.2.1 envA svcNoFns _ _ rfl rfl rfl,
   claim_C3_amended.2.2.1 _ _ rfl rfl rfl,
   claim_C3_amended.2.2.2.1 envA svcNoFns _ _ none rfl rfl rfl,
   claim_C3_amended.2.2.2.2 envA none none "f" fnBadToggle [] false _ "AX14" rfl rfl rfl⟩

def cFalsyVersion : CustomBlock := ⟨none, none, some (.vStr "")⟩

def cTruthyBadVersion : CustomBlock :=
  ⟨none, none, some (.vStr "some_wrong_version_number")⟩

/-- C4 counterexample: a falsy non-number `lambdaInsightsVersion` (the
empty string) does not fail the run — the truthiness guard in front of the
type check silently treats it as unset. -/
theorem claim_C4_counterexample :
    (JSVal.vStr "").isNum = false ∧
    (addLambdaInsights envA svcNoFns (some cFalsyVersion)).err = none :=
  ⟨rfl, rfl⟩

/-- C4 amended: a truthy non-number `lambdaInsightsVersion` fails the run
with the version type error before any remote call is issued; a falsy one
is silently resolved to unset. -/
theorem claim_C4_amended :
    (∀ (env : Env) (svc : ServiceState) (c : CustomBlock) (w : JSVal)
        (g : Option Bool) (ap : Bool),
      c.lambdaInsightsVersion = some w → w.isNum = false → w.truthy = true →
      resolveGlobalInsights (some c) = .ok g →
      resolveAttachPolicy (some c) = .ok ap →
      (addLambdaInsights env svc (some c)).err = some .invalidVersionType ∧
      (addLambdaInsights env svc (some c)).reqs = []) ∧
    (∀ (c : CustomBlock) (w : JSVal),
      c.lambdaInsightsVersion = some w → w.truthy = false →
      resolveLayerVersion (some c) = .ok none) := by
  constructor
  · intro env svc c w g ap hc hw ht hg ha
    have hchk : checkLambdaInsightsVersion w = .error .invalidVersionType := by
      cases w
      case vNum m => simp [JSVal.isNum] at hw
      all_goals rfl
    constructor <;>
      simp [addLambdaInsights, hg, ha, resolveLayerVersion, hc, ht, hchk, Except.map]
  · intro c w hc ht
    simp [resolveLayerVersion, hc, ht]

/-- C4 witness: both strands of the amended claim at a concrete input. -/
theorem claim_C4_witness :
    ((addLambdaInsights envA svcNoFns (some cTruthyBadVersion)).err =
      some .invalidVersionType ∧
     (addLambdaInsights envA svcNoFns (some cTruthyBadVersion)).reqs = []) ∧
    resolveLayerVersion (some cFalsyVersion) = .ok none :=
  ⟨claim_C4_amended.1 envA svcNoFns _ _ none true rfl rfl rfl rfl rfl,
   claim_C4_amended.2 _ _ rfl rfl⟩

/-- C5: layer resolution is arm64-qualified exactly when the architecture
resolved by the spec rule — the function's own declared architecture, else
the deployment-wide one, else `x86_64` — is `arm64`; the request template
with an explicit version and the static table without one are both selected
by that same resolution. -/
theorem claim_C5_architecture (env : Env) (v : Option Int) (fnArch : Option String)
    (hne : fnArch ≠ some "") :
    (isArm64 fnArch env.providerArch = true ↔
      specResolvedArchitecture fnArch env.providerArch = "arm64") ∧
    (generateLayerARN env v fnArch).2 =
      (if versionTruthy v then
        [if isArm64 fnArch env.providerArch then armArnTemplate env.region (v.getD 0)
         else x86ArnTemplate env.region (v.getD 0)]
       else []) ∧
    (versionTruthy v = false →
      (generateLayerARN env v fnArch).1 =
        (match (if isArm64 fnArch env.providerArch then env.armTable else env.x86Table)
            env.region with
         | some a => if a = "" then .error (.unknownRegion env.region) else .ok a
         | none => .error (.unknownRegion env.region))) := by
  refine ⟨?_, generateLayerARN_reqs env v fnArch, ?_⟩
  · rcases fnArch with _ | a
    · rcases hp : env.providerArch with _ | p
      · simp [isArm64, specResolvedArchitecture, hp]
      · simp [isArm64, specResolvedArchitecture, hp]
    · have ha : a ≠ "" := by intro h; exact hne (by rw [h])
      simp [isArm64, specResolvedArchitecture, ha]
  · intro hv
    simp only [generateLayerARN, hv, Bool.false_eq_true, if_false]
    rcases h : (if isArm64 fnArch env.providerArch = true then env.armTable
        else env.x86Table) env.region with _ | a
    · simp [h]
    · by_cases ha : a = "" <;> simp [h, ha]

/-- C5 witness: a function declaring `arm64` while the deployment declares
no architecture resolves against the arm64 table. -/
theorem claim_C5_witness :
    (isArm64 (some "arm64") envA.providerArch = true ↔
      specResolvedArchitecture (some "arm64") envA.providerArch = "arm64") ∧
    (generateLayerARN envA none (some "arm64")).2 =
      (if versionTruthy none then
        [if isArm64 (some "arm64") envA.providerArch then
           armArnTemplate envA.region ((none : Option Int).getD 0)
         else x86ArnTemplate envA.region ((none : Option Int).getD 0)]
       else []) ∧
    (versionTruthy (none : Option Int) = false →
      (generateLayerARN envA none (some "arm64")).1 =
        (match (if isArm64 (some "arm64") envA.providerArch then envA.armTable
            else envA.x86Table) envA.region with
         | some a => if a = "" then .error (.unknownRegion envA.region) else .ok a
         | none => .error (.unknownRegion envA.region))) :=
  claim_C5_architecture envA none (some "arm64") (by simp)

/-- C6: with an explicit version, a remote failure of the
AccessDenied kind becomes a version-not-found error naming version and
region, any other remote failure is propagated unchanged, and a remote
success yields its identifier; without one, a region absent from the
resolved architecture's static table yields an unknown-region error, and a
present non-empty entry is returned as the identifier. -/
theorem claim_C6_resolution_outcomes (env : Env) (n : Int) (hn : n ≠ 0)
    (fnArch : Option String) :
    (∀ e : RemoteErr,
      env.remote (if isArm64 fnArch env.providerArch then armArnTemplate env.region n
        else x86ArnTemplate env.region n) = .error e →
      ((e.code = some "AccessDeniedException" →
        (generateLayerARN env (some n) fnArch).1 =
          .error (.layerVersionNotFound n env.region)) ∧
       (e.code ≠ some "AccessDeniedException" →
        (generateLayerARN env (some n) fnArch).1 = .error (.remote e)))) ∧
    (∀ a : String,
      env.remote (if isArm64 fnArch env.providerArch then armArnTemplate env.region n
        else x86ArnTemplate env.region n) = .ok a →
      (generateLayerARN env (some n) fnArch).1 = .ok a) ∧
    ((if isArm64 fnArch env.providerArch then env.armTable else env.x86Table)
        env.region = none →
      (generateLayerARN env none fnArch).1 = .error (.unknownRegion env.region)) ∧
    (∀ s : String, s ≠ "" →
      (if isArm64 fnArch env.providerArch then env.armTable else env.x86Table)
        env.region = some s →
      (generateLayerARN env none fnArch).1 = .ok s) := by
  have hv : versionTruthy (some n) = true := by simp [versionTruthy, hn]
  refine ⟨?_, ?_, ?_, ?_⟩
  · intro e he
    constructor
    · intro hc
      simp only [generateLayerARN, hv, if_pos trivial]
      by_cases harm : isArm64 fnArch env.providerArch = true
      · simp only [harm, if_pos trivial] at he ⊢
        simp [he, hc]
      · simp only [Bool.not_eq_true] at harm
        simp only [harm, Bool.false_eq_true, if_false] at he ⊢
        simp [he, hc]
    · intro hc
      simp only [generateLayerARN, hv, if_pos trivial]
      by_cases harm : isArm64 fnArch env.providerArch = true
      · simp only [harm, if_pos trivial] at he ⊢
        simp [he, hc]
      · simp only [Bool.not_eq_true] at harm
        simp only [harm, Bool.false_eq_true, if_false] at he ⊢
        simp [he, hc]
  · intro a ha
    simp only [generateLayerARN, hv, if_pos trivial]
    by_cases harm : isArm64 fnArch env.providerArch = true
    · simp only [harm, if_pos trivial] at ha ⊢
      simp [ha]
    · simp only [Bool.not_eq_true] at harm
      simp only [harm, Bool.false_eq_true, if_false] at ha ⊢
      simp [ha]
  · intro ht
    simp [generateLayerARN, versionTruthy, ht]
  · intro s hs ht
    simp [generateLayerARN, versionTruthy, ht, hs]

/-- C6 witness: against the test-double oracle, version 55555 fails as
not-found naming version and region, version 12 resolves, a throttling
failure propagates unchanged, the arm64 table misses the region while the
x86 entry resolves. -/
theorem claim_C6_witness :
    (generateLayerARN envD (some 55555) none).1 =
      .error (.layerVersionNotFound 55555 "us-east-1") ∧
    (generateLayerARN envD (some 12) none).1 = .ok (x86ArnTemplate "us-east-1" 12) ∧
    (generateLayerARN envE (some 7) none).1 =
      .error (.remote ⟨some "Throttling", "throttled"⟩) ∧
    (generateLayerARN envD none (some "arm64")).1 =
      .error (.unknownRegion "us-east-1") ∧
    (generateLayerARN envD none none).1 = .ok "AX14" :=
  ⟨((claim_C6_resolution_outcomes envD 55555 (by decide) none).1
      ⟨some "AccessDeniedException", "denied"⟩ rfl).1 rfl,
   (claim_C6_resolution_outcomes envD 12 (by decide) none).2.1
      (x86ArnTemplate "us-east-1" 12) rfl,
   ((claim_C6_resolution_outcomes envE 7 (by decide) none).1
      ⟨some "Throttling", "throttled"⟩ rfl).2 (by decide),
   (claim_C6_resolution_outcomes envD 55555 (by decide) (some "arm64")).2.2.1 rfl,
   (claim_C6_resolution_outcomes envD 55555 (by decide) none).2.2.2 "AX14" (by decide) rfl⟩

end Insights
